import Mathlib

/-!
Shallow embedding of `src/extract_zeiss_volumes.py` (Zeiss Cirrus OCT `.img`
volume extraction).  Byte buffers are modelled as `List Nat` (each entry one
uint8 sample), filesystem paths as `List String` (the path segments, as in
`pathlib.Path.parts`), the filesystem as a partial map from paths to file
contents together with a set of existing directories, and `float32`
arithmetic as exact rationals.  Errors raised by the code are modelled by an
explicit error type carrying the data interpolated into the Python message.
-/

namespace ZeissExtract

/-- A volume shape triple `(d, h, w)` = (frames, height, width). -/
abbrev Shape := Nat × Nat × Nat

/-- The registry of known Zeiss export shapes (`known`, line 24 of the source):
a single entry, the Macular Cube 200x200 shape. -/
def knownShapes : List Shape := [(200, 1024, 200)]

/-- `infer_shape_from_filesize` (source lines 19-30): return the first
registry triple whose product `d*h*w` equals the byte count, else `None`. -/
def infer_shape_from_filesize (n_bytes : Nat) : Option Shape :=
  knownShapes.find? (fun s => s.1 * s.2.1 * s.2.2 == n_bytes)

/-- Errors raised inside `read_img`.  `sizeMismatch` is the explicit
`ValueError` of lines 47-52, carrying exactly the data interpolated into its
message; `emptyStack` is the `ValueError` numpy's `np.stack` raises on an
empty list of arrays (reachable only when the frame count `d` is zero). -/
inductive DecodeError where
  | sizeMismatch (path : String) (got : Nat) (expected : Nat) (shape : Shape)
  | emptyStack
deriving DecidableEq

/-- Python's rendering of a shape tuple, e.g. `(200, 1024, 200)`. -/
def shapeRepr (s : Shape) : String :=
  "(" ++ toString s.1 ++ ", " ++ toString s.2.1 ++ ", " ++ toString s.2.2 ++ ")"

/-- The message string of each error, mirroring the Python f-string of lines
48-51 (resp. numpy's stack error). -/
def DecodeError.message : DecodeError → String
  | .sizeMismatch p got expected shape =>
      "Size mismatch for " ++ p ++ ":\n  got    " ++ toString got
        ++ " bytes\n  expect " ++ toString expected ++ " bytes for shape "
        ++ shapeRepr shape
        ++ "\n  (hint: this file might not be a 200x200 cube or has different dimensions)"
  | .emptyStack => "need at least one array to stack"

/-- numpy `reshape((h, w))` of a flat row-major array: element `(r, c)` is
`flat[r*w + c]`.  Faithful whenever `flat.length = h*w`, which is the only
situation in which the source calls it (the size check has already passed). -/
def npReshape2 (h w : Nat) (flat : List Nat) : List (List Nat) :=
  (List.range h).map (fun r => (List.range w).map (fun c => flat.getD (r * w + c) 0))

/-- numpy slicing `[::-1, ::-1]` on an `(h, w)` array: reverse the order of
the rows and reverse each row. -/
def npFlipBoth (m : List (List Nat)) : List (List Nat) :=
  m.reverse.map List.reverse

/-- `np.stack(frames, axis=0)` for a list of equal-shape 2-D frames: the
stacked 3-D array, except that numpy raises
`ValueError: need at least one array to stack` on an empty list. -/
def npStack (frames : List (List (List Nat))) :
    Except DecodeError (List (List (List Nat))) :=
  if frames.isEmpty then .error .emptyStack else .ok frames

/-- The b-scan loop of `read_img` (source lines 56-62): frame `bscan_nr` is
the byte slice `[hw*bscan_nr, hw*bscan_nr + hw)` reshaped to `(h, w)` and
flipped along both in-plane axes. -/
def decodeFrames (img_bytes : List Nat) (d h w : Nat) : List (List (List Nat)) :=
  (List.range d).map (fun bscan_nr =>
    npFlipBoth (npReshape2 h w ((img_bytes.drop (h * w * bscan_nr)).take (h * w))))

/-- The spacing computation of line 54,
`np.array(size_mm_zyx) / np.array(size_pix_zyx)`, modelled in exact rational
arithmetic in place of `float32`. -/
def spacing_zyx (size_mm_zyx : ℚ × ℚ × ℚ) (size_pix_zyx : Shape) : ℚ × ℚ × ℚ :=
  (size_mm_zyx.1 / (size_pix_zyx.1 : ℚ),
    size_mm_zyx.2.1 / (size_pix_zyx.2.1 : ℚ),
    size_mm_zyx.2.2 / (size_pix_zyx.2.2 : ℚ))

/-- `read_img` (source lines 33-71): size check, spacing computation, frame
loop and stack.  `p` is the path rendered into the error message.  The
optional SimpleITK image (`sim`) is handled at the `process_one` level via
the `hasSitk` flag, since it only matters for which artifacts get written. -/
def read_img (p : String) (img_bytes : List Nat) (size_pix_zyx : Shape)
    (size_mm_zyx : ℚ × ℚ × ℚ) :
    Except DecodeError (List (List (List Nat)) × (ℚ × ℚ × ℚ)) :=
  if img_bytes.length ≠ size_pix_zyx.1 * size_pix_zyx.2.1 * size_pix_zyx.2.2 then
    .error (.sizeMismatch p img_bytes.length
      (size_pix_zyx.1 * size_pix_zyx.2.1 * size_pix_zyx.2.2) size_pix_zyx)
  else
    match npStack (decodeFrames img_bytes size_pix_zyx.1 size_pix_zyx.2.1 size_pix_zyx.2.2) with
    | .error e => .error e
    | .ok vol => .ok (vol, spacing_zyx size_mm_zyx size_pix_zyx)

/-- `relative_under_images`'s search for the first path segment equal to
`"images"` (`parts.index("images")` + drop): `some rest` is everything after
the first marker segment, `none` means the marker is absent. -/
def afterMarker : List String → Option (List String)
  | [] => none
  | seg :: rest => if seg = "images" then some rest else afterMarker rest

/-- `relative_under_images` (source lines 74-89): the segments after the
first `"images"` segment, or, when the marker is absent, just the file's own
name (its last segment). -/
def relative_under_images (parts : List String) : List String :=
  match afterMarker parts with
  | some rel => rel
  | none => [parts.getLastD ""]

/-- Membership in the character class `[\w\-.]` of the sanitizing regex
(ASCII fragment): alphanumerics, underscore, hyphen, dot. -/
def isSafeChar (c : Char) : Bool :=
  c.isAlphanum || c == '_' || c == '-' || c == '.'

/-- The action of `re.sub(r"[^\w\-.]+", "_", s)` on a character list: every
maximal nonempty run of characters outside the safe class becomes a single
underscore.  The `inRun` flag records being inside such a run. -/
def sanitizeAux : Bool → List Char → List Char
  | _, [] => []
  | inRun, c :: cs =>
    if isSafeChar c then c :: sanitizeAux false cs
    else if inRun then sanitizeAux true cs
    else '_' :: sanitizeAux true cs

/-- `safe_leaf_foldername` (source lines 92-97). -/
def safe_leaf_foldername (filename : String) : String :=
  String.mk (sanitizeAux false filename.toList)

/-- Content of one file in the modelled filesystem.  Artifact payloads are
kept structured (instead of serialized) so that what was written is visible
to the theorems; `raw` is an input `.img` file's byte dump. -/
inductive FileData where
  | raw (bytes : List Nat)
  | npyVol (vol : List (List (List Nat)))
  | npySpacing (sp : ℚ × ℚ × ℚ)
  | niiVol (vol : List (List (List Nat)))
  | metaJson (input_path output_dir rel : List String) (shape : Shape)
      (sp : ℚ × ℚ × ℚ) (filesize : Nat) (sitk_written : Bool)
  | text (s : String)
deriving DecidableEq

/-- `Path.stat().st_size`: for a raw byte file, its byte count.  (Structured
artifact payloads stand for serialized files whose on-disk size the claims
never consult; it is modelled as 0.) -/
def FileData.statSize : FileData → Nat
  | .raw b => b.length
  | _ => 0

/-- `np.fromfile(p, dtype=np.uint8)`: the raw bytes of the file.  Only ever
applied to `raw` files by the claims. -/
def FileData.asBytes : FileData → List Nat
  | .raw b => b
  | _ => []

/-- The filesystem: a partial map from paths to contents plus the set of
existing directories. -/
structure FSState where
  files : List String → Option FileData
  dirs : List String → Bool

/-- Writing (or overwriting) one file. -/
def writeFile (fs : FSState) (p : List String) (data : FileData) : FSState :=
  { fs with files := fun q => if q = p then some data else fs.files q }

/-- `out_dir.mkdir(parents=True, exist_ok=True)`: the directory and all its
ancestors exist afterwards; nothing else changes (in particular no file
changes, and it never fails). -/
def mkdirParents (fs : FSState) (p : List String) : FSState :=
  { fs with dirs := fun q => fs.dirs q || q.isPrefixOf p }

/-- The per-file conversion outcome (first component of `process_one`'s
return value). -/
inductive Status where
  | OK
  | SKIP
  | DRYRUN
  | ERR
deriving DecidableEq

/-- The shape resolution of `process_one` lines 109-116: forced shape
verbatim, else the inferred shape, else the hard-coded fallback. -/
def resolveShape (n_bytes : Nat) (force_shape : Option Shape) : Shape :=
  match force_shape with
  | some s => s
  | none =>
    match infer_shape_from_filesize n_bytes with
    | some s => s
    | none => (200, 1024, 200)

/-- The output-directory mapping of `process_one` lines 119-123:
`out_root / rel.parent / safe_leaf_foldername(rel.name)`. -/
def out_dir_of (out_root img_path : List String) : List String :=
  let rel := relative_under_images img_path
  out_root ++ rel.dropLast ++ [safe_leaf_foldername (rel.getLastD "")]

/-- The `already_done` check of line 131: the three artifacts `meta.json`,
`vol.npy` and `spacing_zyx.npy` all exist in the output directory. -/
def alreadyDone (fs : FSState) (out_dir : List String) : Bool :=
  (fs.files (out_dir ++ ["meta.json"])).isSome &&
    (fs.files (out_dir ++ ["vol.npy"])).isSome &&
    (fs.files (out_dir ++ ["spacing_zyx.npy"])).isSome

/-- `str(p)` for a segment-list path. -/
def pathStr (p : List String) : String := String.intercalate "/" p

/-- `process_one` (source lines 100-168).  Returns `none` when the initial
`img_path.stat()` fails (file absent), modelling the uncaught exception;
otherwise `some (status, fs, bytesRead)` where `bytesRead` records whether
the file's bytes were read (`np.fromfile` inside `read_img`).  `hasSitk`
models the module-level `HAS_SITK` flag: when true, a `vol.nii.gz` artifact
is additionally written on success and recorded in the metadata. -/
def process_one (hasSitk : Bool) (img_path out_root : List String)
    (default_mm : ℚ × ℚ × ℚ) (force_shape : Option Shape)
    (dry_run overwrite : Bool) (fs : FSState) :
    Option (Status × FSState × Bool) :=
  match fs.files img_path with
  | none => none
  | some fdata =>
    let n_bytes := fdata.statSize
    let shape := resolveShape n_bytes force_shape
    let out_dir := out_dir_of out_root img_path
    let fs1 := mkdirParents fs out_dir
    if alreadyDone fs1 out_dir && !overwrite then some (.SKIP, fs1, false)
    else if dry_run then some (.DRYRUN, fs1, false)
    else
      match read_img (pathStr img_path) fdata.asBytes shape default_mm with
      | .ok voldata =>
        let fs2 := writeFile fs1 (out_dir ++ ["vol.npy"]) (.npyVol voldata.1)
        let fs3 := writeFile fs2 (out_dir ++ ["spacing_zyx.npy"]) (.npySpacing voldata.2)
        let fs4 :=
          if hasSitk then writeFile fs3 (out_dir ++ ["vol.nii.gz"]) (.niiVol voldata.1)
          else fs3
        let fs5 := writeFile fs4 (out_dir ++ ["meta.json"])
          (.metaJson img_path out_dir (relative_under_images img_path) shape
            voldata.2 n_bytes hasSitk)
        some (.OK, fs5, true)
      | .error e =>
        some (.ERR, writeFile fs1 (out_dir ++ ["error.txt"]) (.text (e.message ++ "\n")), true)

/-- One batch run at the Conversion State Machine boundary: `process_one`
over an ordered list of candidate files, threading the filesystem and
collecting the per-file outcomes (a `none` outcome, i.e. an uncaught stat
failure, aborts, as it would abort `main`). -/
def runBatch (hasSitk : Bool) (paths : List (List String)) (out_root : List String)
    (default_mm : ℚ × ℚ × ℚ) (force_shape : Option Shape)
    (dry_run overwrite : Bool) (fs : FSState) : Option (List Status × FSState) :=
  match paths with
  | [] => some ([], fs)
  | p :: rest =>
    match process_one hasSitk p out_root default_mm force_shape dry_run overwrite fs with
    | none => none
    | some (st, fs2, _) =>
      match runBatch hasSitk rest out_root default_mm force_shape dry_run overwrite fs2 with
      | none => none
      | some (sts, fs3) => some (st :: sts, fs3)

/-! ### Basic facts about the decoder -/

theorem decodeFrames_length (b : List Nat) (d h w : Nat) :
    (decodeFrames b d h w).length = d := by
  simp [decodeFrames]

theorem decodeFrames_isEmpty_false (b : List Nat) (d h w : Nat) (hd : 1 ≤ d) :
    (decodeFrames b d h w).isEmpty = false := by
  rw [List.isEmpty_eq_false_iff_exists_mem]
  have hlen : (decodeFrames b d h w).length = d := decodeFrames_length b d h w
  have : 0 < (decodeFrames b d h w).length := by omega
  exact ⟨_, (decodeFrames b d h w).getElem_mem this⟩

theorem read_img_eq_ok (p : String) (buffer : List Nat) (d h w : Nat)
    (mm : ℚ × ℚ × ℚ) (hL : buffer.length = d * h * w) (hd : 1 ≤ d) :
    read_img p buffer (d, h, w) mm
      = Except.ok (decodeFrames buffer d h w, spacing_zyx mm (d, h, w)) := by
  unfold read_img
  rw [if_neg (by simpa using hL)]
  simp [npStack, decodeFrames_isEmpty_false buffer d h w hd]

theorem read_img_eq_error (p : String) (buffer : List Nat) (d h w : Nat)
    (mm : ℚ × ℚ × ℚ) (hL : buffer.length ≠ d * h * w) :
    read_img p buffer (d, h, w) mm
      = Except.error (.sizeMismatch p buffer.length (d * h * w) (d, h, w)) := by
  unfold read_img
  rw [if_pos (by simpa using hL)]

/-- C1 counterexample: for the degenerate shape `(0,1,1)` and the empty
buffer the size invariant `L = d*h*w` holds, yet the decode fails —
`np.stack` raises on the empty list of frames — so "decode succeeds iff
`L == d*h*w`" is false for arbitrary shapes. -/
theorem C1_counterexample :
    (([] : List Nat).length = 0 * 1 * 1) ∧
      read_img "f.img" [] (0, 1, 1) (6, 2, 6) = Except.error DecodeError.emptyStack :=
  ⟨rfl, rfl⟩

/-- C1 (amended: the "succeeds iff" direction needs at least one frame,
`1 ≤ d`; the failure direction holds for every shape): whenever the buffer
length differs from `d*h*w`, `read_img` fails with a size-mismatch error
whose message carries the actual byte count, the expected byte count and the
attempted shape; and for `1 ≤ d` the decode succeeds iff the buffer length
equals `d*h*w`. -/
theorem C1_size_invariant_amended (p : String) (buffer : List Nat) (d h w : Nat)
    (mm : ℚ × ℚ × ℚ) :
    (buffer.length ≠ d * h * w →
      read_img p buffer (d, h, w) mm
          = Except.error (.sizeMismatch p buffer.length (d * h * w) (d, h, w)) ∧
        ∃ s1 s2 s3 s4,
          (DecodeError.sizeMismatch p buffer.length (d * h * w) (d, h, w)).message
            = s1 ++ toString buffer.length ++ s2 ++ toString (d * h * w) ++ s3
                ++ shapeRepr (d, h, w) ++ s4) ∧
    (1 ≤ d →
      ((∃ r, read_img p buffer (d, h, w) mm = Except.ok r) ↔ buffer.length = d * h * w)) := by
  constructor
  · intro hL
    refine ⟨read_img_eq_error p buffer d h w mm hL, ?_⟩
    exact ⟨"Size mismatch for " ++ p ++ ":\n  got    ", " bytes\n  expect ",
      " bytes for shape ",
      "\n  (hint: this file might not be a 200x200 cube or has different dimensions)", rfl⟩
  · intro hd
    constructor
    · rintro ⟨r, hr⟩
      by_contra hL
      rw [read_img_eq_error p buffer d h w mm hL] at hr
      exact Except.noConfusion hr
    · intro hL
      exact ⟨_, read_img_eq_ok p buffer d h w mm hL hd⟩

/-- C1 witness: at shape `(1,1,3)`, a 2-byte buffer fails with the
size-mismatch error carrying got 2 / expected 3 / shape `(1, 1, 3)`, and a
3-byte buffer decodes successfully. -/
theorem C1_witness :
    read_img "f.img" [1, 2] (1, 1, 3) (6, 2, 6)
        = Except.error (.sizeMismatch "f.img" 2 3 (1, 1, 3)) ∧
      ∃ r, read_img "f.img" [9, 9, 9] (1, 1, 3) (6, 2, 6) = Except.ok r :=
  ⟨((C1_size_invariant_amended "f.img" [1, 2] 1 1 3 (6, 2, 6)).1 (by decide)).1,
    ((C1_size_invariant_amended "f.img" [9, 9, 9] 1 1 3 (6, 2, 6)).2 (by decide)).mpr
      (by decide)⟩

/-! ### Shape resolution (C4) -/

/-- C4: the shape resolver returns a forced shape verbatim; with no forced
shape it returns the registry triple found by the ordered registry scan
(which is a registry entry whose product is the byte count), falling back to
`(200,1024,200)` when no registry triple matches; in particular a byte count
of exactly `200*1024*200` resolves to `(200,1024,200)`.  It is a total
function (never fails). -/
theorem C4_shape_resolver (n : Nat) (s : Shape) :
    resolveShape n (some s) = s ∧
    (∀ t, infer_shape_from_filesize n = some t →
      resolveShape n none = t ∧ t ∈ knownShapes ∧ t.1 * t.2.1 * t.2.2 = n) ∧
    (infer_shape_from_filesize n = none → resolveShape n none = (200, 1024, 200)) ∧
    infer_shape_from_filesize (200 * 1024 * 200) = some (200, 1024, 200) ∧
    resolveShape (200 * 1024 * 200) none = (200, 1024, 200) := by
  refine ⟨rfl, ?_, ?_, by decide, by decide⟩
  · intro t ht
    refine ⟨by simp [resolveShape, ht], List.mem_of_find?_eq_some ht, ?_⟩
    have := List.find?_some ht
    simpa using this
  · intro hn
    simp [resolveShape, hn]

/-- C4 witness: a byte count matching no registry entry resolves to the
fallback, a forced shape is returned verbatim, and the registry byte count
resolves to the registry entry. -/
theorem C4_witness :
    resolveShape 5 (some (1, 2, 3)) = (1, 2, 3) ∧
      resolveShape 5 none = (200, 1024, 200) ∧
      infer_shape_from_filesize (200 * 1024 * 200) = some (200, 1024, 200) ∧
      resolveShape (200 * 1024 * 200) none = (200, 1024, 200) :=
  ⟨(C4_shape_resolver 5 (1, 2, 3)).1,
    (C4_shape_resolver 5 (1, 2, 3)).2.2.1 (by decide),
    (C4_shape_resolver 5 (1, 2, 3)).2.2.2.1,
    (C4_shape_resolver 5 (1, 2, 3)).2.2.2.2⟩

/-! ### Spacing (C6) -/

/-- C6: the spacing vector returned by a successful decode is the physical
extent divided elementwise by the shape, in (depth, height, width) order;
for shape `(200,1024,200)` and extent `(6,2,6)` mm it is exactly
`(0.03, 0.001953125, 0.03)` (exact rational arithmetic in place of the
source's `float32`). -/
theorem C6_spacing (p : String) (buffer : List Nat) (pix : Shape)
    (mm : ℚ × ℚ × ℚ) (vol : List (List (List Nat))) (sp : ℚ × ℚ × ℚ)
    (hok : read_img p buffer pix mm = Except.ok (vol, sp)) :
    sp = (mm.1 / (pix.1 : ℚ), mm.2.1 / (pix.2.1 : ℚ), mm.2.2 / (pix.2.2 : ℚ)) ∧
      spacing_zyx (6, 2, 6) (200, 1024, 200) = (0.03, 0.001953125, 0.03) := by
  constructor
  · unfold read_img at hok
    split at hok
    · exact Except.noConfusion hok
    · split at hok
      · exact Except.noConfusion hok
      · rename_i heq
        injection hok with h1
        injection h1 with hvol hsp
        exact hsp ▸ rfl
  · norm_num [spacing_zyx]

/-- C6 witness: a concrete successful decode, its spacing, and the
`(200,1024,200)`/`(6,2,6)` spacing instance. -/
theorem C6_witness :
    spacing_zyx (6, 2, 6) (200, 1024, 200) = (0.03, 0.001953125, 0.03) ∧
      ∃ vol sp, read_img "f.img" [1, 2] (1, 1, 2) (6, 2, 6) = Except.ok (vol, sp) ∧
        sp = ((6 : ℚ) / ((1 : Nat) : ℚ), (2 : ℚ) / ((1 : Nat) : ℚ), (6 : ℚ) / ((2 : Nat) : ℚ)) := by
  have h := C6_spacing "f.img" [1, 2] (1, 1, 2) (6, 2, 6)
    (decodeFrames [1, 2] 1 1 2) (spacing_zyx (6, 2, 6) (1, 1, 2)) rfl
  exact ⟨h.2, _, _, rfl, h.1⟩

/-! ### Frame transform (C2) -/

theorem getD_map_range {α : Type} (n : Nat) (f : Nat → α) (i : Nat) (dflt : α)
    (h : i < n) : ((List.range n).map f).getD i dflt = f i := by
  rw [List.getD_eq_getElem?_getD, List.getElem?_map]
  simp [List.getElem?_range, h]

theorem getD_reverse {α : Type} (l : List α) (i : Nat) (dflt : α)
    (h : i < l.length) :
    l.reverse.getD i dflt = l.getD (l.length - 1 - i) dflt := by
  rw [List.getD_eq_getElem?_getD, List.getD_eq_getElem?_getD, List.getElem?_reverse h]

theorem npReshape2_length (h w : Nat) (flat : List Nat) :
    (npReshape2 h w flat).length = h := by
  simp [npReshape2]

theorem npFlipBoth_getD (m : List (List Nat)) (r : Nat) (h : r < m.length) :
    (npFlipBoth m).getD r [] = (m.getD (m.length - 1 - r) []).reverse := by
  unfold npFlipBoth
  rw [show m.reverse.map List.reverse = (m.map List.reverse).reverse by
    simp [List.map_reverse]]
  rw [getD_reverse _ _ _ (by simpa using h)]
  simp only [List.length_map]
  rw [List.getD_eq_getElem?_getD, List.getElem?_map, List.getD_eq_getElem?_getD]
  have hlt : m.length - 1 - r < m.length := by omega
  rw [List.getElem?_eq_getElem hlt]
  simp

theorem slice_getD (l : List Nat) (s len j : Nat) (h : j < len) :
    ((l.drop s).take len).getD j 0 = l.getD (s + j) 0 := by
  rw [List.getD_eq_getElem?_getD, List.getD_eq_getElem?_getD]
  rw [show (List.take len (List.drop s l))[j]? = (List.drop s l)[j]? by
    simp [List.getElem?_take, h]]
  rw [List.getElem?_drop]

theorem decodeFrames_getD (buffer : List Nat) (d h w i r c : Nat)
    (hi : i < d) (hr : r < h) (hc : c < w) :
    (((decodeFrames buffer d h w).getD i []).getD r []).getD c 0
      = buffer.getD (h * w * i + ((h - 1 - r) * w + (w - 1 - c))) 0 := by
  unfold decodeFrames
  rw [getD_map_range _ _ _ _ hi]
  rw [npFlipBoth_getD _ _ (by rw [npReshape2_length]; exact hr)]
  rw [npReshape2_length]
  unfold npReshape2
  rw [getD_map_range _ _ _ _ (by omega : h - 1 - r < h)]
  rw [getD_reverse _ _ _ (by simpa using hc)]
  simp only [List.length_map, List.length_range]
  rw [getD_map_range _ _ _ _ (by omega : w - 1 - c < w)]
  have hb : (h - 1 - r) * w + (w - 1 - c) < h * w := by
    have h1 : h - 1 - r + 1 ≤ h := by omega
    have h2 : (h - 1 - r + 1) * w ≤ h * w := Nat.mul_le_mul_right w h1
    rw [Nat.succ_mul] at h2
    omega
  rw [slice_getD _ _ _ _ hb]

/-- C2: for a buffer of length `d*h*w`, the volume returned by a successful
decode satisfies `decoded[i][r][c] = buffer[i*h*w + (h-1-r)*w + (w-1-c)]`
for every in-range frame `i`, row `r`, column `c`: each frame is the
row-major `(h,w)` reshape of its byte slice with both row order and column
order reversed, and the `d` frames are stacked in order. -/
theorem C2_frame_transform (p : String) (buffer : List Nat) (d h w i r c : Nat)
    (mm : ℚ × ℚ × ℚ) (vol : List (List (List Nat))) (sp : ℚ × ℚ × ℚ)
    (hL : buffer.length = d * h * w) (hi : i < d) (hr : r < h) (hc : c < w)
    (hok : read_img p buffer (d, h, w) mm = Except.ok (vol, sp)) :
    ((vol.getD i []).getD r []).getD c 0
      = buffer.getD (i * h * w + (h - 1 - r) * w + (w - 1 - c)) 0 := by
  have hvol : vol = decodeFrames buffer d h w := by
    rw [read_img_eq_ok p buffer d h w mm hL (by omega)] at hok
    injection hok with h1
    injection h1 with hvol hsp
    exact hvol.symm
  rw [hvol, decodeFrames_getD buffer d h w i r c hi hr hc]
  congr 1
  ring

/-- C2 witness: for the 4-byte buffer `[1,2,3,4]` with shape `(1,2,2)` the
decoded volume is `[[[4,3],[2,1]]]` and `decoded[0][0][0] = buffer[3]`. -/
theorem C2_witness :
    read_img "f.img" [1, 2, 3, 4] (1, 2, 2) (6, 2, 6)
        = Except.ok ([[[4, 3], [2, 1]]], spacing_zyx (6, 2, 6) (1, 2, 2)) ∧
      ((([[[4, 3], [2, 1]]] : List (List (List Nat))).getD 0 []).getD 0 []).getD 0 0
        = [1, 2, 3, 4].getD 3 0 :=
  ⟨rfl,
    C2_frame_transform "f.img" [1, 2, 3, 4] 1 2 2 0 0 0 (6, 2, 6)
      [[[4, 3], [2, 1]]] (spacing_zyx (6, 2, 6) (1, 2, 2)) rfl
      (by decide) (by decide) (by decide) rfl⟩

/-! ### Output path mapping (C5) -/

theorem afterMarker_append (pre post : List String) (hpre : "images" ∉ pre) :
    afterMarker (pre ++ "images" :: post) = some post := by
  induction pre with
  | nil => simp [afterMarker]
  | cons a rest ih =>
    have ha : a ≠ "images" := by
      intro hEq
      exact hpre (by simp [hEq])
    have hrest : "images" ∉ rest := fun hm => hpre (by simp [hm])
    simp only [List.cons_append, afterMarker]
    rw [if_neg (fun hEq => ha hEq)]
    exact ih hrest

theorem afterMarker_none (parts : List String) (h : "images" ∉ parts) :
    afterMarker parts = none := by
  induction parts with
  | nil => rfl
  | cons a rest ih =>
    have ha : a ≠ "images" := by
      intro hEq
      exact h (by simp [hEq])
    simp only [afterMarker]
    rw [if_neg (fun hEq => ha hEq)]
    exact ih (fun hm => h (by simp [hm]))

theorem sanitizeAux_safe_part (g t : List Char)
    (hg : ∀ c ∈ g, isSafeChar c = true) :
    sanitizeAux false (g ++ t) = g ++ sanitizeAux false t := by
  induction g with
  | nil => rfl
  | cons a rest ih =>
    have ha : isSafeChar a = true := hg a (by simp)
    simp only [List.cons_append, sanitizeAux, ha, if_pos, List.append_eq]
    rw [ih (fun c hc => hg c (by simp [hc]))]

theorem sanitizeAux_skip_run (b r : List Char)
    (hb : ∀ c ∈ b, isSafeChar c = false) :
    sanitizeAux true (b ++ r) = sanitizeAux true r := by
  induction b with
  | nil => rfl
  | cons a rest ih =>
    have ha : isSafeChar a = false := hb a (by simp)
    simp only [List.cons_append, sanitizeAux, ha]
    exact ih (fun c hc => hb c (by simp [hc]))

theorem sanitizeAux_true_eq_false (r : List Char)
    (hr : ∀ c ∈ r.take 1, isSafeChar c = true) :
    sanitizeAux true r = sanitizeAux false r := by
  cases r with
  | nil => rfl
  | cons a rest =>
    have ha : isSafeChar a = true := hr a (by simp)
    simp [sanitizeAux, ha]

/-- The regex semantics of `safe_leaf_foldername`: a maximal nonempty run of
unsafe characters collapses to a single underscore, safe characters pass
through unchanged. -/
theorem sanitizeAux_run (g b r : List Char)
    (hg : ∀ c ∈ g, isSafeChar c = true)
    (hb : ∀ c ∈ b, isSafeChar c = false) (hbne : b ≠ [])
    (hr : ∀ c ∈ r.take 1, isSafeChar c = true) :
    sanitizeAux false (g ++ b ++ r) = g ++ '_' :: sanitizeAux false r := by
  rw [List.append_assoc, sanitizeAux_safe_part g (b ++ r) hg]
  congr 1
  cases b with
  | nil => exact absurd rfl hbne
  | cons a rest =>
    have ha : isSafeChar a = false := hb a (by simp)
    simp only [List.cons_append, sanitizeAux, ha, Bool.false_eq_true, if_false,
      List.append_eq]
    rw [sanitizeAux_skip_run rest r (fun c hc => hb c (by simp [hc]))]
    rw [sanitizeAux_true_eq_false r hr]

/-- C5: for a source path whose segments contain the anchor marker
`"images"`, the mapped output directory is the output root followed by
exactly the segments after the first marker segment, in order, with only the
final (filename) segment replaced by its sanitized form; for a path with no
marker segment the mapped directory is the output root followed by the
sanitized filename alone.  (`out_dir_of` is a pure function of the path.)
The sanitizing transform replaces every maximal run of characters outside
`[alphanumeric _ . -]` by one underscore (`sanitizeAux_run` instance in the
last conjunct). -/
theorem C5_path_mapping (out_root pre post parts : List String)
    (hpre : "images" ∉ pre) (_hpost : post ≠ []) (hparts : "images" ∉ parts) :
    out_dir_of out_root (pre ++ "images" :: post)
        = out_root ++ post.dropLast ++ [safe_leaf_foldername (post.getLastD "")] ∧
      out_dir_of out_root parts
        = out_root ++ [safe_leaf_foldername (parts.getLastD "")] ∧
      ∀ g b r, (∀ c ∈ g, isSafeChar c = true) → (∀ c ∈ b, isSafeChar c = false) →
        b ≠ [] → (∀ c ∈ r.take 1, isSafeChar c = true) →
        safe_leaf_foldername (String.mk (g ++ b ++ r))
          = String.mk (g ++ '_' :: sanitizeAux false r) := by
  refine ⟨?_, ?_, ?_⟩
  · unfold out_dir_of relative_under_images
    rw [afterMarker_append pre post hpre]
  · unfold out_dir_of relative_under_images
    rw [afterMarker_none parts hparts]
    simp
  · intro g b r hg hb hbne hr
    unfold safe_leaf_foldername
    rw [show (String.mk (g ++ b ++ r)).toList = g ++ b ++ r from rfl]
    rw [sanitizeAux_run g b r hg hb hbne hr]

/-- C5 witness: a path with the marker maps to the segments after it with
the filename sanitized (space replaced by underscore); a path without the
marker maps to its sanitized filename alone; a two-character unsafe run
collapses to one underscore. -/
theorem C5_witness :
    out_dir_of ["out"] (["data"] ++ "images" :: ["s1", "my scan.img"])
        = ["out"] ++ ["s1"] ++ [safe_leaf_foldername "my scan.img"] ∧
      out_dir_of ["out"] ["plain scan.img"]
        = ["out"] ++ [safe_leaf_foldername "plain scan.img"] ∧
      safe_leaf_foldername "my scan.img" = "my_scan.img" ∧
      safe_leaf_foldername (String.mk (['a'] ++ [' ', '/'] ++ ['b'])) = "a_b" := by
  have h := C5_path_mapping ["out"] ["data"] ["s1", "my scan.img"] ["plain scan.img"]
    (by decide) (by decide) (by decide)
  refine ⟨h.1, ?_, by decide, ?_⟩
  · have h2 := h.2.1
    simpa using h2
  · have h3 := h.2.2 ['a'] [' ', '/'] ['b'] (by decide) (by decide) (by decide) (by decide)
    rw [h3]
    rfl

/-! ### Filesystem-level facts and fixtures -/

theorem mkdirParents_files (fs : FSState) (p : List String) :
    (mkdirParents fs p).files = fs.files := rfl

theorem alreadyDone_files_congr (fs gs : FSState) (q : List String)
    (h : fs.files = gs.files) : alreadyDone fs q = alreadyDone gs q := by
  simp [alreadyDone, h]

theorem writeFile_files_self (fs : FSState) (p : List String) (d : FileData) :
    (writeFile fs p d).files p = some d := by
  simp [writeFile]

theorem writeFile_files_ne (fs : FSState) (p q : List String) (d : FileData)
    (h : q ≠ p) : (writeFile fs p d).files q = fs.files q := by
  simp [writeFile, h]

theorem append_singleton_ne (l : List String) (a b : String) (h : a ≠ b) :
    l ++ [a] ≠ l ++ [b] := by
  intro hEq
  exact h (by simpa using List.append_cancel_left hEq)

/-- The empty filesystem. -/
def emptyFS : FSState := ⟨fun _ => none, fun _ => false⟩

/-- Fixture: one 2-byte source file under `images/` plus its three already
existing output artifacts in the mapped output directory. -/
def exFSDone : FSState :=
  writeFile (writeFile (writeFile (writeFile emptyFS
    ["images", "a", "f.img"] (.raw [1, 2]))
    ["out", "a", "f.img", "meta.json"] (.text "m"))
    ["out", "a", "f.img", "vol.npy"] (.text "v"))
    ["out", "a", "f.img", "spacing_zyx.npy"] (.text "s")

/-- Fixture: just the 2-byte source file, no outputs, no directories. -/
def exFSFresh : FSState := writeFile emptyFS ["images", "a", "f.img"] (.raw [1, 2])

/-- Fixture: a 2-byte source file to be converted with a forced `(1,1,2)`
shape. -/
def exFSRaw2 : FSState := writeFile emptyFS ["images", "a", "f.img"] (.raw [5, 7])

theorem process_one_skip (hasSitk : Bool) (img_path out_root : List String)
    (mm : ℚ × ℚ × ℚ) (force : Option Shape) (dry_run : Bool) (fs : FSState)
    (fdata : FileData) (hstat : fs.files img_path = some fdata)
    (hdone : alreadyDone fs (out_dir_of out_root img_path) = true) :
    process_one hasSitk img_path out_root mm force dry_run false fs
      = some (.SKIP, mkdirParents fs (out_dir_of out_root img_path), false) := by
  unfold process_one
  rw [hstat]
  have hd2 : alreadyDone (mkdirParents fs (out_dir_of out_root img_path))
      (out_dir_of out_root img_path) = true := by
    rw [alreadyDone_files_congr _ fs _ (mkdirParents_files fs _)]
    exact hdone
  simp [hd2]

theorem runBatch_all_skip (hasSitk : Bool) (paths : List (List String))
    (out_root : List String) (mm : ℚ × ℚ × ℚ) (force : Option Shape) (fs : FSState)
    (hex : ∀ p ∈ paths, (fs.files p).isSome = true)
    (hdone : ∀ p ∈ paths, alreadyDone fs (out_dir_of out_root p) = true) :
    ∃ fs2, runBatch hasSitk paths out_root mm force false false fs
        = some (paths.map (fun _ => Status.SKIP), fs2) ∧ fs2.files = fs.files := by
  induction paths generalizing fs with
  | nil => exact ⟨fs, rfl, rfl⟩
  | cons p rest ih =>
    obtain ⟨fdata, hfd⟩ := Option.isSome_iff_exists.mp (hex p (by simp))
    have hskip := process_one_skip hasSitk p out_root mm force false fs fdata hfd
      (hdone p (by simp))
    obtain ⟨fs2, hrb, hfiles⟩ := ih (mkdirParents fs (out_dir_of out_root p))
      (fun q hq => by rw [mkdirParents_files]; exact hex q (by simp [hq]))
      (fun q hq => by
        rw [alreadyDone_files_congr _ fs _ (mkdirParents_files fs _)]
        exact hdone q (by simp [hq]))
    refine ⟨fs2, ?_, by rw [hfiles]; rfl⟩
    simp only [runBatch, hskip, hrb, List.map_cons]

/-- C3: a per-file conversion whose three artifacts already exist returns
SKIP with `overwrite=false`, reading no bytes and changing no file; hence a
whole batch over files whose artifacts all exist (as after a fully
successful first run) yields only SKIP outcomes and leaves every file
byte-for-byte unchanged. -/
theorem C3_skip_idempotence :
    (∀ hasSitk img_path out_root mm force dry_run fs fdata,
        fs.files img_path = some fdata →
        alreadyDone fs (out_dir_of out_root img_path) = true →
        ∃ fs2, process_one hasSitk img_path out_root mm force dry_run false fs
            = some (Status.SKIP, fs2, false) ∧ fs2.files = fs.files) ∧
      ∀ hasSitk paths out_root mm force fs,
        (∀ p ∈ paths, (fs.files p).isSome = true) →
        (∀ p ∈ paths, alreadyDone fs (out_dir_of out_root p) = true) →
        ∃ fs2, runBatch hasSitk paths out_root mm force false false fs
            = some (paths.map (fun _ => Status.SKIP), fs2) ∧ fs2.files = fs.files := by
  constructor
  · intro hasSitk img out_root mm force dry_run fs fdata hstat hdone
    exact ⟨_, process_one_skip hasSitk img out_root mm force dry_run fs fdata hstat hdone,
      rfl⟩
  · intro hasSitk paths out_root mm force fs hex hdone
    exact runBatch_all_skip hasSitk paths out_root mm force fs hex hdone

/-- C3 witness: on a filesystem holding a source file and its three
artifacts, the per-file call SKIPs without reading bytes or touching files,
and a one-file batch yields `[SKIP]` with files unchanged. -/
theorem C3_witness :
    (∃ fs2, process_one false ["images", "a", "f.img"] ["out"] (6, 2, 6) none false false
          exFSDone = some (Status.SKIP, fs2, false) ∧ fs2.files = exFSDone.files) ∧
      ∃ fs2, runBatch false [["images", "a", "f.img"]] ["out"] (6, 2, 6) none false false
          exFSDone = some ([Status.SKIP], fs2) ∧ fs2.files = exFSDone.files := by
  constructor
  · exact C3_skip_idempotence.1 false ["images", "a", "f.img"] ["out"] (6, 2, 6) none false
      exFSDone (FileData.raw [1, 2]) (by decide) (by decide)
  · obtain ⟨fs2, h1, h2⟩ := C3_skip_idempotence.2 false [["images", "a", "f.img"]] ["out"]
      (6, 2, 6) none exFSDone (by decide) (by decide)
    exact ⟨fs2, h1, h2⟩

/-! ### Overwrite semantics (C7) -/

/-- C7 counterexample: with `overwrite=true` AND `dry_run=true` on a file
whose three outputs exist, the conversion returns DRYRUN with no bytes read
— so "with `overwrite=true` ... DRYRUN is never returned" is false as
stated. -/
theorem C7_counterexample :
    alreadyDone exFSDone ["out", "a", "f.img"] = true ∧
      (process_one false ["images", "a", "f.img"] ["out"] (6, 2, 6) none true true
          exFSDone).map (fun r => (r.1, r.2.2))
        = some (Status.DRYRUN, false) :=
  ⟨rfl, rfl⟩

/-- C7 (amended: additionally requires `dry_run=false`; the artifacts are
rewritten exactly when the decode succeeds, otherwise an error record is
written): with `overwrite=true` and `dry_run=false`, `process_one` never
returns SKIP or DRYRUN — it reads the file's bytes and attempts the decode;
on success it rewrites the volume, spacing and metadata artifacts and
returns OK, on decode failure it writes the error record and returns ERR. -/
theorem C7_overwrite_amended (hasSitk : Bool) (img_path out_root : List String)
    (mm : ℚ × ℚ × ℚ) (force : Option Shape) (fs : FSState) (fdata : FileData)
    (hstat : fs.files img_path = some fdata) :
    ∃ st fs2, process_one hasSitk img_path out_root mm force false true fs
        = some (st, fs2, true) ∧ st ≠ Status.SKIP ∧ st ≠ Status.DRYRUN ∧
      ((∃ vol sp, read_img (pathStr img_path) fdata.asBytes
            (resolveShape fdata.statSize force) mm = Except.ok (vol, sp) ∧
          st = Status.OK ∧
          fs2.files (out_dir_of out_root img_path ++ ["vol.npy"])
              = some (FileData.npyVol vol) ∧
          fs2.files (out_dir_of out_root img_path ++ ["spacing_zyx.npy"])
              = some (FileData.npySpacing sp) ∧
          (fs2.files (out_dir_of out_root img_path ++ ["meta.json"])).isSome = true) ∨
        (∃ e, read_img (pathStr img_path) fdata.asBytes
            (resolveShape fdata.statSize force) mm = Except.error e ∧
          st = Status.ERR ∧
          fs2.files (out_dir_of out_root img_path ++ ["error.txt"])
            = some (FileData.text (e.message ++ "\n")))) := by
  have hvm : out_dir_of out_root img_path ++ ["vol.npy"]
      ≠ out_dir_of out_root img_path ++ ["meta.json"] :=
    append_singleton_ne _ _ _ (by decide)
  have hvn : out_dir_of out_root img_path ++ ["vol.npy"]
      ≠ out_dir_of out_root img_path ++ ["vol.nii.gz"] :=
    append_singleton_ne _ _ _ (by decide)
  have hvs : out_dir_of out_root img_path ++ ["vol.npy"]
      ≠ out_dir_of out_root img_path ++ ["spacing_zyx.npy"] :=
    append_singleton_ne _ _ _ (by decide)
  have hsm : out_dir_of out_root img_path ++ ["spacing_zyx.npy"]
      ≠ out_dir_of out_root img_path ++ ["meta.json"] :=
    append_singleton_ne _ _ _ (by decide)
  have hsn : out_dir_of out_root img_path ++ ["spacing_zyx.npy"]
      ≠ out_dir_of out_root img_path ++ ["vol.nii.gz"] :=
    append_singleton_ne _ _ _ (by decide)
  unfold process_one
  rw [hstat]
  simp only [Bool.not_true, Bool.and_false, Bool.false_eq_true, if_false]
  cases hread : read_img (pathStr img_path) fdata.asBytes
      (resolveShape fdata.statSize force) mm with
  | ok voldata =>
    refine ⟨Status.OK, _, rfl, by simp, by simp, Or.inl ⟨voldata.1, voldata.2, rfl, rfl,
      ?_, ?_, ?_⟩⟩
    · cases hasSitk <;>
        simp [writeFile_files_ne _ _ _ _ hvm, writeFile_files_ne _ _ _ _ hvn,
          writeFile_files_ne _ _ _ _ hvs, writeFile_files_self]
    · cases hasSitk <;>
        simp [writeFile_files_ne _ _ _ _ hsm, writeFile_files_ne _ _ _ _ hsn,
          writeFile_files_self]
    · simp [writeFile_files_self]
  | error e =>
    exact ⟨Status.ERR, _, rfl, by simp, by simp,
      Or.inr ⟨e, rfl, rfl, writeFile_files_self _ _ _⟩⟩

/-- C7 witness: on a filesystem whose outputs all exist, `overwrite=true`
with `dry_run=false` yields neither SKIP nor DRYRUN and reads the bytes. -/
theorem C7_witness :
    ∃ st fs2, process_one false ["images", "a", "f.img"] ["out"] (6, 2, 6) none false true
        exFSDone = some (st, fs2, true) ∧ st ≠ Status.SKIP ∧ st ≠ Status.DRYRUN := by
  obtain ⟨st, fs2, h1, h2, h3, _⟩ := C7_overwrite_amended false ["images", "a", "f.img"]
    ["out"] (6, 2, 6) none exFSDone (FileData.raw [1, 2]) (by decide)
  exact ⟨st, fs2, h1, h2, h3⟩

/-! ### Dry-run semantics (C8) -/

/-- C8 counterexample: on a fresh output tree, the dry-run call returns
DRYRUN but the output directory has been created (`mkdir` runs before the
`dry_run` check), so "without performing any filesystem write" is false as
stated. -/
theorem C8_counterexample :
    exFSFresh.dirs ["out", "a", "f.img"] = false ∧
      (process_one false ["images", "a", "f.img"] ["out"] (6, 2, 6) none true false
          exFSFresh).map (fun r => (r.1, r.2.1.dirs ["out", "a", "f.img"], r.2.2))
        = some (Status.DRYRUN, true, false) :=
  ⟨rfl, rfl⟩

/-- C8 (amended: "no filesystem write" weakened to "no file written" — the
output directory and its ancestors are created before the dry-run check):
with `dry_run=true` on a file that is not skipped, `process_one` returns
DRYRUN with no bytes read, the resulting filesystem being exactly the input
one with the output directory (and parents) created and every file
unchanged. -/
theorem C8_dryrun_amended (hasSitk : Bool) (img_path out_root : List String)
    (mm : ℚ × ℚ × ℚ) (force : Option Shape) (overwrite : Bool) (fs : FSState)
    (fdata : FileData) (hstat : fs.files img_path = some fdata)
    (hskip : (alreadyDone fs (out_dir_of out_root img_path) && !overwrite) = false) :
    process_one hasSitk img_path out_root mm force true overwrite fs
        = some (Status.DRYRUN, mkdirParents fs (out_dir_of out_root img_path), false) ∧
      (mkdirParents fs (out_dir_of out_root img_path)).files = fs.files := by
  refine ⟨?_, rfl⟩
  unfold process_one
  rw [hstat]
  have hskip2 : (alreadyDone (mkdirParents fs (out_dir_of out_root img_path))
      (out_dir_of out_root img_path) && !overwrite) = false := by
    rw [alreadyDone_files_congr _ fs _ (mkdirParents_files fs _)]
    exact hskip
  simp [hskip2]

/-- C8 witness: dry-run on the fresh fixture returns DRYRUN, creates only
directories, reads no bytes. -/
theorem C8_witness :
    process_one false ["images", "a", "f.img"] ["out"] (6, 2, 6) none true false exFSFresh
        = some (Status.DRYRUN, mkdirParents exFSFresh ["out", "a", "f.img"], false) ∧
      (mkdirParents exFSFresh ["out", "a", "f.img"]).files = exFSFresh.files :=
  C8_dryrun_amended false ["images", "a", "f.img"] ["out"] (6, 2, 6) none false exFSFresh
    (FileData.raw [1, 2]) (by decide) (by decide)

/-! ### Spacing artifact file name (C9) -/

/-- C9 counterexample: a successful conversion writes the spacing vector
under `spacing_zyx.npy`, and nothing named `spacing_zyx_mm.npy` exists —
the claimed file name `spacing_zyx_mm.npy` is wrong. -/
theorem C9_counterexample :
    (process_one false ["images", "a", "f.img"] ["out"] (6, 2, 6) (some (1, 1, 2))
          false false exFSRaw2).map
        (fun r => (r.1, r.2.1.files ["out", "a", "f.img", "spacing_zyx_mm.npy"],
          (r.2.1.files ["out", "a", "f.img", "spacing_zyx.npy"]).isSome))
      = some (Status.OK, none, true) := by
  decide

/-- C9 (amended: the file name is `spacing_zyx.npy`, not
`spacing_zyx_mm.npy`): every conversion that returns OK has written the
spacing vector produced by the decode into the output directory under the
file name `spacing_zyx.npy`. -/
theorem C9_spacing_filename_amended (hasSitk : Bool) (img_path out_root : List String)
    (mm : ℚ × ℚ × ℚ) (force : Option Shape) (dry_run overwrite : Bool)
    (fs fs2 : FSState) (rb : Bool)
    (h : process_one hasSitk img_path out_root mm force dry_run overwrite fs
        = some (Status.OK, fs2, rb)) :
    ∃ fdata vol sp, fs.files img_path = some fdata ∧
      read_img (pathStr img_path) fdata.asBytes (resolveShape fdata.statSize force) mm
          = Except.ok (vol, sp) ∧
      fs2.files (out_dir_of out_root img_path ++ ["spacing_zyx.npy"])
        = some (FileData.npySpacing sp) := by
  have hsm : out_dir_of out_root img_path ++ ["spacing_zyx.npy"]
      ≠ out_dir_of out_root img_path ++ ["meta.json"] :=
    append_singleton_ne _ _ _ (by decide)
  have hsn : out_dir_of out_root img_path ++ ["spacing_zyx.npy"]
      ≠ out_dir_of out_root img_path ++ ["vol.nii.gz"] :=
    append_singleton_ne _ _ _ (by decide)
  unfold process_one at h
  cases hstat : fs.files img_path with
  | none =>
    simp only [hstat] at h
    exact Option.noConfusion h
  | some fdata =>
    simp only [hstat] at h
    by_cases hA : (alreadyDone (mkdirParents fs (out_dir_of out_root img_path))
        (out_dir_of out_root img_path) && !overwrite) = true
    · rw [if_pos hA] at h
      simp at h
    · rw [if_neg hA] at h
      by_cases hdry : dry_run = true
      · rw [if_pos hdry] at h
        simp at h
      · rw [if_neg hdry] at h
        cases heq : read_img (pathStr img_path) fdata.asBytes
            (resolveShape fdata.statSize force) mm with
        | error e =>
          rw [heq] at h
          simp at h
        | ok voldata =>
          rw [heq] at h
          simp only [Option.some.injEq, Prod.mk.injEq] at h
          obtain ⟨-, hfs, -⟩ := h
          refine ⟨fdata, voldata.1, voldata.2, rfl, heq, ?_⟩
          rw [← hfs]
          cases hasSitk <;>
            simp [writeFile_files_ne _ _ _ _ hsm, writeFile_files_ne _ _ _ _ hsn,
              writeFile_files_self]

/-- C9 witness: a concrete OK conversion whose spacing vector sits under
`spacing_zyx.npy` in the mapped output directory. -/
theorem C9_witness :
    ∃ fs2 rb fdata vol sp,
      process_one false ["images", "a", "f.img"] ["out"] (6, 2, 6) (some (1, 1, 2))
          false false exFSRaw2 = some (Status.OK, fs2, rb) ∧
      exFSRaw2.files ["images", "a", "f.img"] = some fdata ∧
      read_img (pathStr ["images", "a", "f.img"]) fdata.asBytes
          (resolveShape fdata.statSize (some (1, 1, 2))) (6, 2, 6) = Except.ok (vol, sp) ∧
      fs2.files (["out", "a", "f.img"] ++ ["spacing_zyx.npy"])
        = some (FileData.npySpacing sp) := by
  obtain ⟨fs2, rb, h⟩ : ∃ fs2 rb, process_one false ["images", "a", "f.img"] ["out"]
      (6, 2, 6) (some (1, 1, 2)) false false exFSRaw2 = some (Status.OK, fs2, rb) :=
    ⟨_, _, rfl⟩
  obtain ⟨fdata, vol, sp, h1, h2, h3⟩ := C9_spacing_filename_amended false
    ["images", "a", "f.img"] ["out"] (6, 2, 6) (some (1, 1, 2)) false false exFSRaw2 fs2 rb h
  exact ⟨fs2, rb, fdata, vol, sp, h, h1, h2, h3⟩

/-! ### Default shape and OK-iff-size (C10) -/

theorem resolveShape_none_default (n : Nat) : resolveShape n none = (200, 1024, 200) := by
  by_cases h : ((200 * 1024 * 200 : Nat) == n) = true
  · have hinf : infer_shape_from_filesize n = some (200, 1024, 200) := by
      unfold infer_shape_from_filesize knownShapes
      rw [List.find?_cons_of_pos _ (by exact h)]
    simp [resolveShape, hinf]
  · have hinf : infer_shape_from_filesize n = none := by
      unfold infer_shape_from_filesize knownShapes
      rw [List.find?_cons_of_neg _ (by simpa using h)]
      rfl
    simp [resolveShape, hinf]

/-- C10: with no forced shape the resolved shape is `(200,1024,200)` for
every byte count (the registry's only entry coincides with the fallback);
consequently a real (non-SKIP, non-DRYRUN) conversion of an existing file
without a forced shape reads the bytes and returns OK iff the file is
exactly `40960000 = 200*1024*200` bytes, and ERR otherwise. -/
theorem C10_default_shape_ok_iff :
    (∀ n, resolveShape n none = (200, 1024, 200)) ∧
      ∀ hasSitk img_path out_root mm overwrite fs bytes,
        fs.files img_path = some (FileData.raw bytes) →
        (alreadyDone fs (out_dir_of out_root img_path) && !overwrite) = false →
        ∃ st fs2, process_one hasSitk img_path out_root mm none false overwrite fs
            = some (st, fs2, true) ∧
          (st = Status.OK ↔ bytes.length = 40960000) ∧
          (st = Status.ERR ↔ bytes.length ≠ 40960000) := by
  refine ⟨resolveShape_none_default, ?_⟩
  intro hasSitk img_path out_root mm overwrite fs bytes hstat hskip
  have hshape : resolveShape (FileData.raw bytes).statSize none = (200, 1024, 200) :=
    resolveShape_none_default _
  have hexp : (200 * 1024 * 200 : Nat) = 40960000 := by norm_num
  unfold process_one
  rw [hstat]
  have hskip2 : (alreadyDone (mkdirParents fs (out_dir_of out_root img_path))
      (out_dir_of out_root img_path) && !overwrite) = false := by
    rw [alreadyDone_files_congr _ fs _ (mkdirParents_files fs _)]
    exact hskip
  simp only [hskip2, Bool.false_eq_true, if_false, FileData.statSize, FileData.asBytes,
    hshape, resolveShape_none_default]
  by_cases hlen : bytes.length = 40960000
  · rw [read_img_eq_ok (pathStr img_path) bytes 200 1024 200 mm (by omega) (by omega)]
    exact ⟨Status.OK, _, rfl, by simp [hlen], by simp [hlen]⟩
  · rw [read_img_eq_error (pathStr img_path) bytes 200 1024 200 mm (by omega)]
    exact ⟨Status.ERR, _, rfl, by simp [hlen], by simp [hlen]⟩

/-- C10 witness: a 2-byte file (not `40960000` bytes) processed without a
forced shape yields ERR, and an arbitrary byte count resolves to the
default shape. -/
theorem C10_witness :
    resolveShape 12345 none = (200, 1024, 200) ∧
      ∃ st fs2, process_one false ["images", "a", "f.img"] ["out"] (6, 2, 6) none false false
          exFSFresh = some (st, fs2, true) ∧ st = Status.ERR := by
  refine ⟨C10_default_shape_ok_iff.1 12345, ?_⟩
  obtain ⟨st, fs2, h1, _, hERR⟩ := C10_default_shape_ok_iff.2 false ["images", "a", "f.img"]
    ["out"] (6, 2, 6) false exFSFresh [1, 2] (by decide) (by decide)
  exact ⟨st, fs2, h1, hERR.mpr (by decide)⟩

end ZeissExtract
